import Mathlib

/-!
Shallow embedding of the pdf-context-extraction schema compiler, record
validator and extraction pipeline (src/pdf_context_extraction/schema.py,
agents.py, orchestrator.py).

Modelling conventions:
* Python numbers (floats, Decimals, JSON numbers) are modelled at value level
  by rationals; no bit-level float behaviour is relied on by any claim.
* Fallible Python code (raising) is modelled with `Except String`; an
  exception escaping a call is an `Except.error` at that call's level.
* The values returned by the extraction collaborator are JSON-ish: scalars,
  plus one level of nesting for money amount/currency objects (the only
  structured value the schema admits).
* Pydantic validation of the scalar annotations (str, bool, int, ...) is
  modelled by its strict core; none of the claims depends on pydantic's lax
  coercions for those kinds.  The kinds the claims exercise (percent, enum,
  money, required/optional, extra keys) are modelled from the repository
  code in schema.py.
-/

namespace Pdfx

/-- A scalar value as returned by the extraction collaborator. -/
inductive Scalar where
  | null
  | str (s : String)
  | bool (b : Bool)
  | num (q : ℚ)
deriving DecidableEq, Repr

/-- A raw value: a scalar, or a one-level object (amount/currency pairs are
the only structured values the schema admits). -/
inductive RawValue where
  | scalar (v : Scalar)
  | obj (kvs : List (String × Scalar))
deriving DecidableEq, Repr

/-- A normalized (validated) value. Dates and datetimes keep their accepted
ISO text form. -/
inductive NormValue where
  | null
  | str (s : String)
  | bool (b : Bool)
  | int (n : ℤ)
  | num (q : ℚ)
  | date (s : String)
  | money (amount : ℚ) (currency : String)
deriving DecidableEq, Repr

/-! ### String helpers (structural recursion; no well-founded core functions) -/

/-- Value of a list of decimal digit characters. -/
def digitsToNat (cs : List Char) : Nat :=
  cs.foldl (fun a c => a * 10 + (c.toNat - 48)) 0

/-- Split a character list on a separator character (like str.split). -/
def splitOnChar (c : Char) : List Char → List (List Char)
  | [] => [[]]
  | x :: xs =>
    let r := splitOnChar c xs
    if x = c then
      [] :: r
    else
      match r with
      | [] => [[x]]
      | y :: ys => (x :: y) :: ys

/-- Core of Python numeric-text parsing (sign handled by the caller):
digits with an optional single decimal point.  Exponent notation and
surrounding whitespace, which Python also accepts, are not modelled; no
claim depends on them. -/
def parseDecCore (cs : List Char) : Option ℚ :=
  match splitOnChar '.' cs with
  | [a] =>
    if a ≠ [] ∧ a.all Char.isDigit then some ((digitsToNat a : ℚ)) else none
  | [a, b] =>
    if (a ≠ [] ∨ b ≠ []) ∧ a.all Char.isDigit ∧ b.all Char.isDigit then
      some ((digitsToNat a : ℚ) + (digitsToNat b : ℚ) / ((10 : ℚ) ^ b.length))
    else none
  | _ => none

/-- Parse a decimal numeral with optional sign, as accepted by both
Python float(text) and Decimal(text) for the inputs the claims exercise. -/
def parseDecimal (s : String) : Option ℚ :=
  match s.data with
  | '-' :: rest => (parseDecCore rest).map (fun q => -q)
  | '+' :: rest => parseDecCore rest
  | cs => parseDecCore cs

/-- ASCII upper-casing (Python str.upper restricted to ASCII; the claims only
use ASCII currency codes). -/
def toUpperStr (s : String) : String :=
  String.mk (s.data.map Char.toUpper)

/-- Characters allowed after the first one by the identifier pattern. -/
def isNameChar (c : Char) : Bool :=
  c.isAlpha || c.isDigit || c = '_'

/-- Whole-string semantics of the identifier pattern from the specification:
the name starts with an ASCII letter and continues with letters, digits or
underscores only. -/
def strictNameMatch (s : String) : Bool :=
  match s.data with
  | [] => false
  | c :: cs => c.isAlpha && cs.all isNameChar

/-- The check actually performed by FieldSpecModel.validate_name
(agents.py): Python re.match with that pattern, whose final dollar also
matches just before a single trailing newline. -/
def pyNameMatch (s : String) : Bool :=
  strictNameMatch s ||
    (match s.data.getLast? with
     | some '\n' => strictNameMatch (String.mk s.data.dropLast)
     | _ => false)

/-- Index of the last occurrence of a character, if any. -/
def lastIndexOf (c : Char) : List Char → Option Nat
  | [] => none
  | x :: xs =>
    match lastIndexOf c xs with
    | some i => some (i + 1)
    | none => if x = c then some 0 else none

/-- The part of a path after the final slash (pathlib name). -/
def pathName (p : String) : String :=
  String.mk ((splitOnChar '/' p.data).getLastD [])

/-- pathlib Path(p).suffix followed by .lower(), as used by
ExtractionOrchestrator._preprocess: the final dot-extension of the file name,
empty when the name has no inner dot. -/
def pathSuffix (p : String) : String :=
  let cs := (pathName p).data
  match lastIndexOf '.' cs with
  | some i =>
    if 0 < i ∧ i < cs.length - 1 then
      String.mk ((cs.drop i).map Char.toLower)
    else ""
  | none => ""

/-! ### Field declarations (schema.py FieldSpec, agents.py FieldSpecModel) -/

/-- The closed set of supported kinds (the FieldType Literal). -/
inductive FieldType where
  | str | bool | int | float | decimal | date | datetime | percent | enum | money
deriving DecidableEq, Repr

/-- Normalized user field specification (schema.py FieldSpec dataclass; the
dataclass itself performs no validation). -/
structure FieldSpec where
  name : String
  description : String
  type : FieldType
  required : Bool := true
  enum_values : Option (List String) := none
  examples : List String := []
  currency_hint : Option String := none
deriving DecidableEq, Repr

/-- FieldSpecModel validation (agents.py): the name field validator runs
pyNameMatch; the model validator requires non-empty enum_values with no
empty-string entry for enum kinds, and clears inapplicable auxiliary data
(enum_values for non-enum kinds, currency_hint for non-money kinds). -/
def validateDecl (d : FieldSpec) : Except String FieldSpec :=
  if pyNameMatch d.name = false then
    .error "Field name must start with a letter and contain only letters, numbers, underscore"
  else if d.type = .enum then
    match d.enum_values with
    | none => .error "enum_values must be provided for enum type"
    | some vs =>
      if vs = [] then .error "enum_values must be provided for enum type"
      else if vs.any (fun v => v = "") then
        .error "enum_values cannot contain empty strings"
      else .ok { d with currency_hint := none }
  else
    let d1 : FieldSpec := { d with enum_values := none }
    if d.type = .money then .ok d1 else .ok { d1 with currency_hint := none }

/-! ### Compiled record type (schema.py build_model) -/

/-- Per-field validation rule of the compiled record type. -/
inductive FieldRule where
  | str | bool | int | float | decimal | date | datetime
  | percent (scale : String)
  | enum (values : List String)
  | money
deriving DecidableEq, Repr

/-- One entry of the compiled record type: name, requiredness and rule. -/
structure CompiledField where
  name : String
  required : Bool
  rule : FieldRule
deriving DecidableEq, Repr

/-- Rule construction for one spec inside build_model.  Only the enum branch
can fail (enum_values None or empty).  The unsupported-kind branch of the
source is unreachable here because FieldType is the closed Literal. -/
def fieldRuleOf (percent_scale : String) (s : FieldSpec) : Except String FieldRule :=
  match s.type with
  | .str => .ok .str
  | .bool => .ok .bool
  | .int => .ok .int
  | .float => .ok .float
  | .decimal => .ok .decimal
  | .date => .ok .date
  | .datetime => .ok .datetime
  | .percent => .ok (.percent percent_scale)
  | .enum =>
    match s.enum_values with
    | none => .error ("Field " ++ s.name ++ " declared enum without values")
    | some [] => .error ("Field " ++ s.name ++ " declared enum without values")
    | some vs => .ok (.enum vs)
  | .money => .ok .money

/-- Python dict assignment model_fields[name] = entry: replace in place when
the key already exists (keeping its original position), append otherwise. -/
def insertField (m : List CompiledField) (f : CompiledField) : List CompiledField :=
  if m.any (fun g => g.name == f.name) then
    m.map (fun g => if g.name = f.name then f else g)
  else m ++ [f]

/-- The loop of build_model over the specs, carrying the model_fields dict. -/
def buildModelGo (scale : String) : List FieldSpec → List CompiledField → Except String (List CompiledField)
  | [], acc => .ok acc
  | s :: rest, acc =>
    match fieldRuleOf scale s with
    | .error e => .error e
    | .ok r => buildModelGo scale rest (insertField acc ⟨s.name, s.required, r⟩)

/-- build_model (schema.py): build the compiled record type from the specs.
There is no name or duplicate check here; duplicates silently overwrite. -/
def buildModel (specs : List FieldSpec) (percent_scale : String) : Except String (List CompiledField) :=
  buildModelGo percent_scale specs []

/-- Declaration-time validation followed by compilation: the path the
pipeline takes when declarations arrive through the schema agent, matching
the specification's single compile step. -/
def compileDecls (ds : List FieldSpec) (percent_scale : String) : Except String (List CompiledField) := do
  let vs ← ds.mapM validateDecl
  buildModel vs percent_scale

/-! ### Value validation (schema.py Percent, _money_model, pydantic model) -/

/-- Python float(value) as used by Percent.validate: numbers pass through,
booleans coerce to 1 or 0, numeric text parses, anything else raises. -/
def pyFloat : Scalar → Option ℚ
  | .num q => some q
  | .bool b => some (if b then 1 else 0)
  | .str s => parseDecimal s
  | .null => none

/-- Pydantic Decimal acceptance: a number, or decimal text. -/
def decimalOf : Scalar → Option ℚ
  | .num q => some q
  | .str s => parseDecimal s
  | _ => none

/-- All characters are decimal digits. -/
def allDigits (cs : List Char) : Bool :=
  cs.all Char.isDigit

/-- Structural model of ISO date acceptance (a pydantic library behaviour);
no claim depends on the details of date parsing. -/
def dateOk (s : String) : Bool :=
  match splitOnChar '-' s.data with
  | [y, m, d] =>
    y.length == 4 && m.length == 2 && d.length == 2 &&
      allDigits y && allDigits m && allDigits d &&
      Nat.ble 1 (digitsToNat m) && Nat.ble (digitsToNat m) 12 &&
      Nat.ble 1 (digitsToNat d) && Nat.ble (digitsToNat d) 31
  | _ => false

/-- Structural model of ISO datetime acceptance; no claim depends on it. -/
def datetimeOk (s : String) : Bool :=
  dateOk (String.mk (s.data.take 10))

/-- First binding of a key in a scalar object. -/
def lookupScalar : List (String × Scalar) → String → Option Scalar
  | [], _ => none
  | (k', v) :: rest, k => if k' = k then some v else lookupScalar rest k

/-- Validation of the Money model (_money_model in schema.py): a closed
object with a required Decimal amount and a required currency that is
upper-cased and length-checked to exactly 3 characters (constr with
to_upper=True, min_length=3, max_length=3; there is no letters-only
pattern in the source). -/
def validateMoney (kvs : List (String × Scalar)) : Except String NormValue :=
  if ∃ p ∈ kvs, p.1 ≠ "amount" ∧ p.1 ≠ "currency" then
    .error "Money: unexpected field"
  else
    match lookupScalar kvs "amount", lookupScalar kvs "currency" with
    | some a, some c =>
      match decimalOf a with
      | none => .error "Money: amount must be a valid decimal"
      | some q =>
        match c with
        | .str s =>
          let u := toUpperStr s
          if u.length = 3 then .ok (.money q u)
          else .error "Money: currency must have exactly 3 characters"
        | _ => .error "Money: currency must be a valid string"
    | _, _ => .error "Money: amount and currency are required"

/-- Kind-specific validation/normalization of one raw value against one
rule, as performed by the dynamically built pydantic model.  Every rule
rejects an explicit null: the built model annotates optional fields with the
plain type and a None default, not an Optional type. -/
def validateValue (r : FieldRule) (v : RawValue) : Except String NormValue :=
  match r, v with
  | .money, .obj kvs => validateMoney kvs
  | .money, .scalar _ => .error "Money: input should be an object"
  | _, .obj _ => .error "Input should be a scalar"
  | .str, .scalar (.str s) => .ok (.str s)
  | .str, .scalar _ => .error "Input should be a valid string"
  | .bool, .scalar (.bool b) => .ok (.bool b)
  | .bool, .scalar _ => .error "Input should be a valid boolean"
  | .int, .scalar (.num q) =>
    if q.den = 1 then .ok (.int q.num) else .error "Input should be a valid integer"
  | .int, .scalar _ => .error "Input should be a valid integer"
  | .float, .scalar (.num q) => .ok (.num q)
  | .float, .scalar (.str s) =>
    match parseDecimal s with
    | some q => .ok (.num q)
    | none => .error "Input should be a valid number"
  | .float, .scalar _ => .error "Input should be a valid number"
  | .decimal, .scalar sc =>
    match decimalOf sc with
    | some q => .ok (.num q)
    | none => .error "Input should be a valid decimal"
  | .date, .scalar (.str s) =>
    if dateOk s then .ok (.date s) else .error "Input should be a valid date"
  | .date, .scalar _ => .error "Input should be a valid date"
  | .datetime, .scalar (.str s) =>
    if datetimeOk s then .ok (.date s) else .error "Input should be a valid datetime"
  | .datetime, .scalar _ => .error "Input should be a valid datetime"
  | .percent scale, .scalar sc =>
    match pyFloat sc with
    | none => .error "Percent must be a number"
    | some q =>
      let val := if scale = "0-100" then q / 100 else q
      if val < 0 ∨ val > 1 then
        .error "Percent must be between 0 and 1 after normalization"
      else .ok (.num val)
  | .enum values, .scalar (.str s) =>
    if s ∈ values then .ok (.str s)
    else .error "Input should be one of the declared enum values"
  | .enum _, .scalar _ => .error "Input should be one of the declared enum values"

/-- First binding of a key in a raw value set. -/
def lookupRaw : List (String × RawValue) → String → Option RawValue
  | [], _ => none
  | (k', v) :: rest, k => if k' = k then some v else lookupRaw rest k

/-- Per-field pass of record validation, in declared order: an absent entry
uses the None default when optional and is an error when required; a present
entry (explicit null included) goes through the kind validator. -/
def validateFields : List CompiledField → List (String × RawValue) → Except String (List (String × NormValue))
  | [], _ => .ok []
  | f :: fs, raw =>
    match lookupRaw raw f.name with
    | none =>
      if f.required then .error (f.name ++ ": missing required value")
      else
        match validateFields fs raw with
        | .error e => .error e
        | .ok rest => .ok ((f.name, NormValue.null) :: rest)
    | some v =>
      match validateValue f.rule v with
      | .error e => .error (f.name ++ ": " ++ e)
      | .ok nv =>
        match validateFields fs raw with
        | .error e => .error e
        | .ok rest => .ok ((f.name, nv) :: rest)

/-- Keys of the raw set that are not declared in the compiled type. -/
def extraKeys (fields : List CompiledField) (raw : List (String × RawValue)) : List String :=
  (raw.map Prod.fst).filter (fun k => !(fields.any (fun f => f.name == k)))

/-- Validation of a raw value set against the compiled record type
(extra="forbid" on the dynamically built model): any undeclared key is an
error, otherwise the per-field pass runs.  Whether the extra-key error or a
field error is reported first does not affect acceptance. -/
def validateRecord (fields : List CompiledField) (raw : List (String × RawValue)) : Except String (List (String × NormValue)) :=
  match extraKeys fields raw with
  | [] => validateFields fields raw
  | k :: _ => .error (k ++ ": unexpected field")

/-- Acceptance of an Except result. -/
def okB {α : Type} : Except String α → Bool
  | .ok _ => true
  | .error _ => false

/-! ### Orchestration (orchestrator.py ExtractionOrchestrator) -/

/-- Per-document outcome (orchestrator.py DocumentResult). -/
structure DocumentResult where
  document : String
  status : String
  data : Option (List (String × NormValue))
  error : Option String
deriving DecidableEq, Repr

/-- ExtractionOrchestrator._preprocess: dispatch on the lower-cased path
suffix; PDF files go to the preprocessing collaborator (pdfLoad, which may
itself fail), any other suffix raises ValueError. -/
def preprocessStep {Ctx : Type} (pdfLoad : String → Except String Ctx) (p : String) : Except String Ctx :=
  if pathSuffix p = ".pdf" then pdfLoad p
  else .error ("Unsupported file type: " ++ pathSuffix p)

/-- ExtractionAgent.run for one document: the extraction collaborator call
may fail; its output is validated against the compiled record type, and a
validation failure raises out of the call. -/
def extractStep {Ctx : Type} (llm : Ctx → Except String (List (String × RawValue)))
    (fields : List CompiledField) (ctx : Ctx) : Except String (List (String × NormValue)) :=
  match llm ctx with
  | .error e => .error e
  | .ok raw => validateRecord fields raw

/-- The per-document loop of ExtractionOrchestrator.process.  The
preprocessing call sits outside the try/except in the source, so a
preprocessing failure propagates out of the whole loop (Except.error here);
a failure inside the extraction call or validation is caught and appended
as an error result, and the loop continues. -/
def processDocs {Ctx : Type} (fields : List CompiledField)
    (pdfLoad : String → Except String Ctx)
    (llm : String → Ctx → Except String (List (String × RawValue))) :
    List String → Except String (List DocumentResult)
  | [] => .ok []
  | p :: rest =>
    match preprocessStep pdfLoad p with
    | .error e => .error e
    | .ok ctx =>
      let res : DocumentResult :=
        match extractStep (llm p) fields ctx with
        | .ok record => ⟨p, "ok", some record, none⟩
        | .error e => ⟨p, "error", none, some e⟩
      match processDocs fields pdfLoad llm rest with
      | .error e => .error e
      | .ok more => .ok (res :: more)

/-- ExtractionOrchestrator.process.  The schema collaborator call is inside
a try/except: its failure yields one uniform error result per input file and
no document work.  The build_pydantic_model call is outside that try/except,
so a compile failure propagates out of process (Except.error here).  An
exception escaping the Python method is modelled as a top-level
Except.error; a normal return is the Except.ok outcome list. -/
def process {Ctx : Type} (schemaRun : Except String (List FieldSpec))
    (pdfLoad : String → Except String Ctx)
    (llm : String → Ctx → Except String (List (String × RawValue)))
    (files : List String) (percent_scale : String) : Except String (List DocumentResult) :=
  match schemaRun with
  | .error e =>
    .ok (files.map (fun f => ⟨f, "error", none, some ("Schema agent error: " ++ e)⟩))
  | .ok specs =>
    match buildModel specs percent_scale with
    | .error e => .error e
    | .ok fields => processDocs fields pdfLoad llm files

/-- Decidable equality of Except results, used to settle concrete runs. -/
instance {ε α : Type} [DecidableEq ε] [DecidableEq α] : DecidableEq (Except ε α)
  | .ok x, .ok y =>
    if h : x = y then .isTrue (by rw [h]) else .isFalse (fun hh => h (Except.ok.inj hh))
  | .error x, .error y =>
    if h : x = y then .isTrue (by rw [h]) else .isFalse (fun hh => h (Except.error.inj hh))
  | .ok _, .error _ => .isFalse (fun hh => Except.noConfusion hh)
  | .error _, .ok _ => .isFalse (fun hh => Except.noConfusion hh)

/-! ### Concrete collaborators and inputs used by the claim theorems -/

/-- A preprocessing collaborator that succeeds on every document. -/
def pdfOkU : String → Except String Unit :=
  fun _ => .ok ()

/-- A single required string field, the schema used by the pipeline runs. -/
def titleSpecs : List FieldSpec :=
  [⟨"title", "document title", .str, true, none, [], none⟩]

/-- An extraction collaborator returning a valid record for every document. -/
def llmTitle : String → Unit → Except String (List (String × RawValue)) :=
  fun _ _ => .ok [("title", .scalar (.str "t"))]

/-- An extraction collaborator whose call fails exactly on b.pdf. -/
def llmFailB : String → Unit → Except String (List (String × RawValue)) :=
  fun p _ => if p = "b.pdf" then .error "extraction call failed" else .ok [("title", .scalar (.str "t"))]

/-- An extraction collaborator that must never be reached. -/
def llmNone : String → Unit → Except String (List (String × RawValue)) :=
  fun _ _ => .error "collaborator invoked"

/-- Declarations whose compilation fails: an enum field without values
(the FieldSpec dataclass itself enforces nothing). -/
def badEnumSpecs : List FieldSpec :=
  [⟨"x", "d", .enum, true, none, [], none⟩]

/-- Two declarations sharing one name with different kinds and requiredness. -/
def dupSpecs : List FieldSpec :=
  [⟨"a", "first", .str, true, none, [], none⟩, ⟨"a", "second", .int, false, none, [], none⟩]

/-- A money raw value with string amount and currency components. -/
def moneyRaw (amt cur : String) : RawValue :=
  .obj [("amount", .str amt), ("currency", .str cur)]

/-! ### Claim theorems -/

/-- Claim C1 (code_bug evidence).  A failure of the extraction call for one
document is indeed isolated (three documents with the second one's
extraction call failing give outcomes ok, error, ok in input order), but a
preprocessing failure is not: the preprocessing call sits outside the
per-document try/except, so with files a.txt and b.pdf the unsupported-type
ValueError escapes the whole run and no outcome sequence is produced,
against the claim that every per-document failure becomes a Failure outcome
for that document only. -/
theorem C1_preprocess_failure_escapes_run :
  process (.ok titleSpecs) pdfOkU llmFailB ["a.pdf", "b.pdf", "c.pdf"] "0-1" =
      .ok [⟨"a.pdf", "ok", some [("title", .str "t")], none⟩,
           ⟨"b.pdf", "error", none, some "extraction call failed"⟩,
           ⟨"c.pdf", "ok", some [("title", .str "t")], none⟩]
  ∧ process (.ok titleSpecs) pdfOkU llmTitle ["a.txt", "b.pdf"] "0-1" =
      .error "Unsupported file type: .txt"
:= by decide

/-- Claim C2 (code_bug evidence).  A schema-inference failure does
short-circuit with one uniform Failure outcome per document and no
per-document work, but a compile failure does not: the
build_pydantic_model call sits outside the try/except, so declarations with
an enum field lacking values make the ValueError escape the whole run
instead of producing uniform Failure outcomes. -/
theorem C2_compile_failure_escapes_run :
  process (.error "boom") pdfOkU llmNone ["a.pdf", "b.pdf"] "0-1" =
      .ok [⟨"a.pdf", "error", none, some "Schema agent error: boom"⟩,
           ⟨"b.pdf", "error", none, some "Schema agent error: boom"⟩]
  ∧ process (.ok badEnumSpecs) pdfOkU llmNone ["a.pdf", "b.pdf"] "0-1" =
      .error "Field x declared enum without values"
:= by decide

/-- Claim C3 counterexample.  Two declarations sharing the name a compile
successfully (the dict assignment silently overwrites), so compile does not
fail with a SchemaError on the first duplicate as the claim states. -/
theorem C3_duplicate_names_counterexample :
  okB (buildModel dupSpecs "0-1") = true
:= by decide

/-- Claim C8 (code_bug evidence).  A required field absent from the raw set
is an error and an optional field absent yields a normalized null, as
claimed; but an explicit null on the optional field is rejected, because the
built model annotates optional fields with the plain type and a None
default rather than an Optional type, against the claim (and against the
extraction prompt in the source, which instructs the collaborator to return
null for unknown values). -/
theorem C8_optional_null_rejected :
  validateRecord [⟨"x", true, .str⟩] [] = .error "x: missing required value"
  ∧ okB (validateRecord [⟨"x", true, .str⟩] [("x", .scalar .null)]) = false
  ∧ validateRecord [⟨"x", false, .str⟩] [] = .ok [("x", .null)]
  ∧ okB (validateRecord [⟨"x", false, .str⟩] [("x", .scalar .null)]) = false
:= by decide

/-- Claim C6 (code_bug evidence).  The claimed examples 1field, bad-name and
the empty name are rejected at declaration time, but the name consisting of
letters followed by one trailing newline defeats the pattern: Python
re.match ends with a dollar that also matches just before a final newline,
so the declaration validator accepts a name outside the documented
identifier language; build_model itself performs no name check at all. -/
theorem C6_trailing_newline_name_accepted :
  strictNameMatch "ab\n" = false
  ∧ validateDecl ⟨"ab\n", "d", .str, true, none, [], none⟩ =
      .ok ⟨"ab\n", "d", .str, true, none, [], none⟩
  ∧ okB (buildModel [⟨"bad-name", "d", .str, true, none, [], none⟩] "0-1") = true
  ∧ okB (validateDecl ⟨"1field", "d", .str, true, none, [], none⟩) = false
  ∧ okB (validateDecl ⟨"bad-name", "d", .str, true, none, [], none⟩) = false
  ∧ okB (validateDecl ⟨"", "d", .str, true, none, [], none⟩) = false
:= by decide

/-- Claim C7 counterexample.  A declaration of kind enum whose only entry is
a single space passes declaration validation and compiles: the validator
only rejects entries that are the empty string, not whitespace-only ones,
so compile does not fail as the claim states. -/
theorem C7_whitespace_enum_value_compiles :
  okB (compileDecls [⟨"c", "d", .enum, true, some [" "], [], none⟩] "0-1") = true
:= by decide

/-- Claim C5 counterexample.  The currency u1d contains a digit, yet the
money value validates (to currency U1D): the source constrains the currency
only by length 3 after upper-casing, with no letters-only pattern, so a
non-letter currency is not rejected as the claim states. -/
theorem C5_nonletter_currency_accepted :
  validateValue .money (moneyRaw "19.99" "u1d") = .ok (.money (1999 / 100) "U1D")
:= by
  have h1 : validateValue .money (moneyRaw "19.99" "u1d") =
      .ok (.money ((digitsToNat ['1', '9'] : ℚ) + (digitsToNat ['9', '9'] : ℚ) / (10 : ℚ) ^ (2 : ℕ)) "U1D") := rfl
  rw [h1, show digitsToNat ['1', '9'] = 19 from rfl, show digitsToNat ['9', '9'] = 99 from rfl]
  norm_num

/-- Claim C9 (confirmed).  Whenever the raw set contains a key that no
declared field carries, validation rejects the raw set, whatever the
declared fields and the other values are. -/
theorem C9_closed_world_rejection :
  ∀ (fields : List CompiledField) (raw : List (String × RawValue)) (k : String) (v : RawValue),
    (k, v) ∈ raw → (∀ f ∈ fields, f.name ≠ k) → okB (validateRecord fields raw) = false := by
  intro fields raw k v hmem hnot
  have hk : k ∈ extraKeys fields raw := by
    unfold extraKeys
    refine List.mem_filter.mpr ⟨List.mem_map.mpr ⟨(k, v), hmem, rfl⟩, ?_⟩
    simp only [Bool.not_eq_true', List.any_eq_false]
    intro f hf
    simpa using hnot f hf
  cases hek : extraKeys fields raw with
  | nil => rw [hek] at hk; cases hk
  | cons a t =>
    unfold validateRecord
    rw [hek]
    rfl

/-- Witness for C9 at a concrete input where the single declared field is
present and valid but the raw set carries the undeclared key zzz. -/
theorem C9_closed_world_rejection_witness :
  okB (validateRecord [⟨"a", true, .str⟩]
        [("a", .scalar (.str "v")), ("zzz", .scalar (.str "w"))]) = false :=
  C9_closed_world_rejection _ _ "zzz" (.scalar (.str "w")) (by decide) (by decide)

/-- Replacing the entry sharing a name leaves the name list unchanged. -/
theorem map_name_replace (m : List CompiledField) (f : CompiledField) :
    (m.map (fun g => if g.name = f.name then f else g)).map CompiledField.name =
      m.map CompiledField.name := by
  induction m with
  | nil => rfl
  | cons g gs ih =>
    by_cases hg : g.name = f.name
    · simp [hg, ih]
    · simp [hg, ih]

/-- Dict insertion preserves uniqueness of the stored names. -/
theorem insertField_names_nodup (m : List CompiledField) (f : CompiledField)
    (h : (m.map CompiledField.name).Nodup) :
    ((insertField m f).map CompiledField.name).Nodup := by
  unfold insertField
  by_cases hc : m.any (fun g => g.name == f.name) = true
  · rw [if_pos hc, map_name_replace]
    exact h
  · rw [if_neg hc, List.map_append]
    refine List.Nodup.append h (List.nodup_singleton _) ?_
    intro a ha hb
    rcases List.mem_singleton.mp hb with rfl
    rcases List.mem_map.mp ha with ⟨g, hg, hga⟩
    have hc' : m.any (fun g => g.name == f.name) = false := Bool.eq_false_iff.mpr hc
    exact (List.any_eq_false.mp hc' g hg) (by simpa using hga)

/-- The loop of build_model keeps the stored names unique. -/
theorem buildModelGo_names_nodup (scale : String) :
    ∀ (specs : List FieldSpec) (acc m : List CompiledField),
      (acc.map CompiledField.name).Nodup → buildModelGo scale specs acc = .ok m →
      (m.map CompiledField.name).Nodup := by
  intro specs
  induction specs with
  | nil =>
    intro acc m h hb
    unfold buildModelGo at hb
    cases hb
    exact h
  | cons s rest ih =>
    intro acc m h hb
    unfold buildModelGo at hb
    cases hr : fieldRuleOf scale s with
    | error e => rw [hr] at hb; cases hb
    | ok r => rw [hr] at hb; exact ih _ _ (insertField_names_nodup _ _ h) hb

/-- Claim C3 amended.  Compilation does not fail on duplicate declaration
names: the later declaration silently overwrites the earlier one at its
original position, and every successfully compiled record type maps each
field name uniquely. -/
theorem C3_duplicate_names_amended :
  (∀ (specs : List FieldSpec) (scale : String) (m : List CompiledField),
      buildModel specs scale = .ok m → (m.map CompiledField.name).Nodup)
  ∧ buildModel dupSpecs "0-1" = .ok [⟨"a", false, .int⟩] :=
  ⟨fun specs scale m h => buildModelGo_names_nodup scale specs [] m (by simp) h, by decide⟩

/-- Witness for the amended C3, at the duplicate-name input itself. -/
theorem C3_duplicate_names_amended_witness :
  (([⟨"a", false, FieldRule.int⟩] : List CompiledField).map CompiledField.name).Nodup :=
  C3_duplicate_names_amended.1 dupSpecs "0-1" [⟨"a", false, .int⟩] (by decide)

/-- Validation of a money object whose amount and currency are both given
as strings, written out: the amount must parse as a decimal and the
upper-cased currency must have length exactly 3. -/
theorem validateMoney_strCur (amt cur : String) :
    validateValue .money (moneyRaw amt cur) =
      match parseDecimal amt with
      | none => .error "Money: amount must be a valid decimal"
      | some q =>
        if (toUpperStr cur).length = 3 then .ok (.money q (toUpperStr cur))
        else .error "Money: currency must have exactly 3 characters" := rfl

/-- A money object whose amount does not parse is rejected. -/
theorem validateMoney_parse_none (amt cur : String) (h : parseDecimal amt = none) :
    validateValue .money (moneyRaw amt cur) =
      .error "Money: amount must be a valid decimal" := by
  rw [validateMoney_strCur, h]

/-- A money object whose amount parses reduces to the currency check. -/
theorem validateMoney_parse_some (amt cur : String) (q : ℚ) (h : parseDecimal amt = some q) :
    validateValue .money (moneyRaw amt cur) =
      (if (toUpperStr cur).length = 3 then .ok (.money q (toUpperStr cur))
       else .error "Money: currency must have exactly 3 characters") := by
  rw [validateMoney_strCur, h]

/-- Upper-casing preserves the length of a string. -/
theorem toUpperStr_length (s : String) : (toUpperStr s).length = s.length := by
  show (s.data.map Char.toUpper).length = s.data.length
  exact List.length_map _ _

/-- Claim C5 amended.  The currency component is upper-cased and must have
length exactly 3 (characters, not necessarily letters), the amount must
parse as a decimal, and the two quoted examples behave as claimed. -/
theorem C5_money_amended :
  (∀ cur : String, cur.length ≠ 3 → okB (validateValue .money (moneyRaw "19.99" cur)) = false)
  ∧ (∀ (amt cur : String) (q : ℚ) (u : String),
      validateValue .money (moneyRaw amt cur) = .ok (.money q u) →
        parseDecimal amt = some q ∧ u = toUpperStr cur ∧ u.length = 3)
  ∧ validateValue .money (moneyRaw "19.99" "usd") = .ok (.money (1999 / 100) "USD")
  ∧ okB (validateValue .money (moneyRaw "19.99" "us")) = false
  ∧ okB (validateValue .money (moneyRaw "x2" "usd")) = false
:= by
  refine ⟨?_, ?_, ?_, ?_, ?_⟩
  · intro cur h
    cases hp : parseDecimal "19.99" with
    | none => rw [validateMoney_parse_none _ _ hp]; rfl
    | some q =>
      rw [validateMoney_parse_some _ _ _ hp,
        if_neg (fun hh => h (by rw [← toUpperStr_length cur]; exact hh))]
      rfl
  · intro amt cur q u h
    cases hp : parseDecimal amt with
    | none => rw [validateMoney_parse_none _ _ hp] at h; cases h
    | some q' =>
      rw [validateMoney_parse_some _ _ _ hp] at h
      by_cases hl : (toUpperStr cur).length = 3
      · rw [if_pos hl] at h
        injection h with h2
        injection h2 with hq hu
        refine ⟨?_, hu.symm, ?_⟩
        · rw [hq]
        · rw [← hu]; exact hl
      · rw [if_neg hl] at h; cases h
  · have h1 : validateValue .money (moneyRaw "19.99" "usd") =
        .ok (.money ((digitsToNat ['1', '9'] : ℚ) + (digitsToNat ['9', '9'] : ℚ) / (10 : ℚ) ^ (2 : ℕ)) "USD") := rfl
    rw [h1, show digitsToNat ['1', '9'] = 19 from rfl, show digitsToNat ['9', '9'] = 99 from rfl]
    norm_num
  · cases hp : parseDecimal "19.99" with
    | none => rw [validateMoney_parse_none _ _ hp]; rfl
    | some q =>
      rw [validateMoney_parse_some _ _ _ hp,
        if_neg (show ¬(toUpperStr "us").length = 3 by decide)]
      rfl
  · rw [validateMoney_parse_none "x2" "usd" rfl]
    rfl

/-- Witness for the amended C5, applying the wrong-length branch at us. -/
theorem C5_money_amended_witness :
  okB (validateValue .money (moneyRaw "19.99" "xy")) = false :=
  C5_money_amended.1 "xy" (by decide)

/-- Claim C7 amended.  Compile fails when enumValues is absent or empty, or
when an entry is the empty string; whitespace-only entries such as a single
space are however accepted (the declaration validator only rejects falsy
entries).  At validation time a raw value is accepted exactly when it is a
string that matches one of the declared values case-sensitively, and it
passes through unchanged. -/
theorem C7_enum_amended :
  (∀ d : FieldSpec, d.type = .enum →
      (d.enum_values = none ∨ d.enum_values = some [] ∨
        (∃ vs, d.enum_values = some vs ∧ "" ∈ vs)) →
      okB (validateDecl d) = false)
  ∧ (∀ d : FieldSpec, d.type = .enum → (d.enum_values = none ∨ d.enum_values = some []) →
      okB (buildModel [d] "0-1") = false)
  ∧ (∀ (vs : List String) (s : String),
      validateValue (.enum vs) (.scalar (.str s)) =
        if s ∈ vs then .ok (.str s)
        else .error "Input should be one of the declared enum values")
  ∧ (∀ (vs : List String) (v : RawValue), okB (validateValue (.enum vs) v) = true →
      ∃ s, v = .scalar (.str s) ∧ s ∈ vs)
:= by
  refine ⟨?_, ?_, fun vs s => rfl, ?_⟩
  · intro d ht hv
    unfold validateDecl
    by_cases hn : pyNameMatch d.name = false
    · rw [if_pos hn]; rfl
    · rw [if_neg hn, if_pos ht]
      rcases hv with h | h | ⟨vs, hvs, hmem⟩
      · rw [h]; rfl
      · rw [h]; rfl
      · rw [hvs]
        by_cases he : vs = []
        · subst he; rfl
        · have hany : (vs.any fun v => decide (v = "")) = true :=
            List.any_eq_true.mpr ⟨"", hmem, by simp⟩
          dsimp only
          rw [if_neg he, if_pos hany]
          rfl
  · intro d ht hv
    have hrule : fieldRuleOf "0-1" d =
        .error ("Field " ++ d.name ++ " declared enum without values") := by
      unfold fieldRuleOf
      rw [ht]
      rcases hv with h | h <;> rw [h]
    unfold buildModel buildModelGo
    rw [hrule]
    rfl
  · intro vs v h
    cases v with
    | obj kvs => simp [validateValue, okB] at h
    | scalar sc =>
      cases sc with
      | str s =>
        by_cases hs : s ∈ vs
        · exact ⟨s, rfl, hs⟩
        · rw [show validateValue (.enum vs) (.scalar (.str s)) =
              (if s ∈ vs then .ok (.str s)
               else .error "Input should be one of the declared enum values") from rfl,
            if_neg hs] at h
          simp [okB] at h
      | null => simp [validateValue, okB] at h
      | bool b => simp [validateValue, okB] at h
      | num q => simp [validateValue, okB] at h

/-- Witness for the amended C7: a declaration with an empty-string enum
entry is rejected at declaration time, by the first part of the theorem. -/
theorem C7_enum_amended_witness :
  okB (validateDecl ⟨"c", "d", FieldType.enum, true, some ["", "A"], [], none⟩) = false :=
  C7_enum_amended.1 _ rfl (Or.inr (Or.inr ⟨["", "A"], rfl, by decide⟩))

/-! ### Percent-scale invariance (claim C10) -/

/-- Replace the stored percent scale of a rule; identity on other rules. -/
def ruleScale (scale : String) : FieldRule → FieldRule
  | .percent _ => .percent scale
  | r => r

/-- Replace the stored percent scale of a compiled field. -/
def setScale (scale : String) (f : CompiledField) : CompiledField :=
  { f with rule := ruleScale scale f.rule }

/-- setScale does not touch the field name. -/
theorem setScale_name (scale : String) (f : CompiledField) :
    (setScale scale f).name = f.name := rfl

/-- setScale does not touch requiredness. -/
theorem setScale_required (scale : String) (f : CompiledField) :
    (setScale scale f).required = f.required := rfl

/-- setScale rewrites the rule through ruleScale. -/
theorem setScale_rule (scale : String) (f : CompiledField) :
    (setScale scale f).rule = ruleScale scale f.rule := rfl

/-- Rule construction under any scale is rule construction under 0-1 with
the stored scale replaced: the scale is only stored, never inspected, at
compile time. -/
theorem fieldRuleOf_eq_map (scale : String) (s : FieldSpec) :
    fieldRuleOf scale s = (fieldRuleOf "0-1" s).map (ruleScale scale) := by
  unfold fieldRuleOf
  cases ht : s.type
  case enum =>
    cases hv : s.enum_values with
    | none => rfl
    | some vs => cases vs <;> rfl
  all_goals rfl

/-- Dict insertion commutes with replacing the stored scale. -/
theorem insertField_map (scale : String) (m : List CompiledField) (f : CompiledField) :
    insertField (m.map (setScale scale)) (setScale scale f) =
      (insertField m f).map (setScale scale) := by
  unfold insertField
  have hany : (m.map (setScale scale)).any (fun g => g.name == (setScale scale f).name) =
      m.any (fun g => g.name == f.name) := by
    rw [List.any_map]
    rfl
  rw [hany]
  by_cases hc : m.any (fun g => g.name == f.name) = true
  · rw [if_pos hc, if_pos hc, List.map_map, List.map_map]
    apply List.map_congr_left
    intro g hg
    simp only [Function.comp, setScale_name]
    by_cases h : g.name = f.name
    · rw [if_pos h, if_pos h]
    · rw [if_neg h, if_neg h]
  · rw [if_neg hc, if_neg hc, List.map_append]
    rfl

/-- The build loop under any scale is the build loop under 0-1 with the
stored scales replaced. -/
theorem buildModelGo_map (scale : String) :
    ∀ (specs : List FieldSpec) (acc : List CompiledField),
      buildModelGo scale specs (acc.map (setScale scale)) =
        (buildModelGo "0-1" specs acc).map (List.map (setScale scale)) := by
  intro specs
  induction specs with
  | nil => intro acc; rfl
  | cons s rest ih =>
    intro acc
    unfold buildModelGo
    rw [fieldRuleOf_eq_map scale s]
    cases hr : fieldRuleOf "0-1" s with
    | error e => rfl
    | ok r =>
      show buildModelGo scale rest
          (insertField (acc.map (setScale scale)) (setScale scale ⟨s.name, s.required, r⟩)) = _
      rw [insertField_map scale acc ⟨s.name, s.required, r⟩]
      exact ih _

/-- build_model under any scale equals build_model under 0-1 with the
stored scales replaced; in particular compile success never depends on the
scale string. -/
theorem buildModel_map (scale : String) (specs : List FieldSpec) :
    buildModel specs scale = (buildModel specs "0-1").map (List.map (setScale scale)) := by
  have := buildModelGo_map scale specs []
  simpa [buildModel] using this

/-- Percent validation only inspects whether the stored scale is the exact
string 0-100. -/
theorem validateValue_percent_congr (s1 s2 : String)
    (h : (s1 = "0-100") ↔ (s2 = "0-100")) (v : RawValue) :
    validateValue (.percent s1) v = validateValue (.percent s2) v := by
  by_cases h1 : s1 = "0-100"
  · have h2 := h.mp h1
    cases v with
    | obj kvs => rfl
    | scalar sc => cases sc <;> simp [validateValue, pyFloat, h1, h2]
  · have h2 : ¬ s2 = "0-100" := fun hh => h1 (h.mpr hh)
    cases v with
    | obj kvs => rfl
    | scalar sc => cases sc <;> simp [validateValue, pyFloat, h1, h2]

/-- For a scale different from 0-100, every rule validates exactly as under
scale 0-1. -/
theorem validateValue_setScale (scale : String) (h : scale ≠ "0-100")
    (r : FieldRule) (v : RawValue) :
    validateValue (ruleScale scale r) v = validateValue (ruleScale "0-1" r) v := by
  cases r with
  | percent s =>
    exact validateValue_percent_congr scale "0-1"
      ⟨fun hh => absurd hh h, fun hh => absurd hh (by decide)⟩ v
  | str => rfl
  | bool => rfl
  | int => rfl
  | float => rfl
  | decimal => rfl
  | date => rfl
  | datetime => rfl
  | enum vs => rfl
  | money => rfl

/-- The per-field validation pass is unchanged when a non-0-100 scale
replaces the 0-1 scale. -/
theorem validateFields_setScale (scale : String) (h : scale ≠ "0-100") :
    ∀ (fs : List CompiledField) (raw : List (String × RawValue)),
      validateFields (fs.map (setScale scale)) raw =
        validateFields (fs.map (setScale "0-1")) raw := by
  intro fs
  induction fs with
  | nil => intro raw; rfl
  | cons f fs ih =>
    intro raw
    simp only [List.map_cons]
    unfold validateFields
    simp only [setScale_name, setScale_required, setScale_rule]
    cases lookupRaw raw f.name with
    | none =>
      dsimp only
      by_cases hr : f.required = true
      · rw [if_pos hr, if_pos hr]
      · rw [if_neg hr, if_neg hr, ih raw]
    | some v =>
      dsimp only
      rw [validateValue_setScale scale h f.rule v, ih raw]

/-- The extra-key check only looks at names, which setScale preserves. -/
theorem extraKeys_map_setScale (scale : String) (fs : List CompiledField)
    (raw : List (String × RawValue)) :
    extraKeys (fs.map (setScale scale)) raw = extraKeys fs raw := by
  unfold extraKeys
  congr 1
  funext k
  rw [List.any_map]
  rfl

/-- Record validation is unchanged when a non-0-100 scale replaces the 0-1
scale in every stored rule. -/
theorem validateRecord_setScale (scale : String) (h : scale ≠ "0-100")
    (fs : List CompiledField) (raw : List (String × RawValue)) :
    validateRecord (fs.map (setScale scale)) raw =
      validateRecord (fs.map (setScale "0-1")) raw := by
  unfold validateRecord
  rw [extraKeys_map_setScale, extraKeys_map_setScale]
  cases extraKeys fs raw with
  | nil => exact validateFields_setScale scale h fs raw
  | cons k t => rfl

/-- Claim C10 (confirmed).  Any percent scale other than the exact string
0-100 behaves exactly like 0-1: compilation stores the string without
inspecting or rejecting it (compile success is scale-independent), percent
validation applies no division, and a full record validation under such a
scale equals the one under 0-1. -/
theorem C10_unknown_scale_behaves_like_0_1 :
  ∀ scale : String, scale ≠ "0-100" →
    (∀ specs : List FieldSpec,
        buildModel specs scale = (buildModel specs "0-1").map (List.map (setScale scale)))
    ∧ (∀ specs : List FieldSpec, okB (buildModel specs scale) = okB (buildModel specs "0-1"))
    ∧ (∀ v : RawValue, validateValue (.percent scale) v = validateValue (.percent "0-1") v)
    ∧ (∀ (specs : List FieldSpec) (m m' : List CompiledField),
        buildModel specs scale = .ok m → buildModel specs "0-1" = .ok m' →
        ∀ raw, validateRecord m raw = validateRecord m' raw) := by
  intro scale h
  refine ⟨buildModel_map scale, ?_, ?_, ?_⟩
  · intro specs
    rw [buildModel_map scale specs]
    cases buildModel specs "0-1" <;> rfl
  · intro v
    exact validateValue_percent_congr scale "0-1"
      ⟨fun hh => absurd hh h, fun hh => absurd hh (by decide)⟩ v
  · intro specs m m' hm hm' raw
    have h2 : m = m'.map (setScale scale) := by
      have h1 := buildModel_map scale specs
      rw [hm, hm'] at h1
      simpa [Except.map] using h1
    have h3 : m' = m'.map (setScale "0-1") := by
      have h1 := buildModel_map "0-1" specs
      rw [hm'] at h1
      simpa [Except.map] using h1
    rw [h2]
    conv_rhs => rw [h3]
    exact validateRecord_setScale scale h m' raw

/-- Witness for C10 at the unsupported scale 0-10 with one percent field. -/
theorem C10_unknown_scale_witness :
  validateRecord [⟨"p", true, FieldRule.percent "0-10"⟩] [("p", RawValue.scalar (.num 1))] =
    validateRecord [⟨"p", true, FieldRule.percent "0-1"⟩] [("p", RawValue.scalar (.num 1))] :=
  (C10_unknown_scale_behaves_like_0_1 "0-10" (by decide)).2.2.2
    [⟨"p", "percent field", FieldType.percent, true, none, [], none⟩] _ _ (by decide) (by decide)
    [("p", RawValue.scalar (.num 1))]

/-- Claim C4 (confirmed).  Under scale 0-100 the raw numeric value is
divided by 100 before the bounds check and must land in the inclusive
interval from 0 to 1; under scale 0-1 no division happens; raw 45 under
0-100 normalizes to 0.45, raw 0.45 under 0-1 stays 0.45, and raw 150 under
0-100 is rejected. -/
theorem C4_percent_scaling :
  (∀ q : ℚ, validateValue (.percent "0-100") (.scalar (.num q)) =
      if q / 100 < 0 ∨ q / 100 > 1 then
        .error "Percent must be between 0 and 1 after normalization"
      else .ok (.num (q / 100)))
  ∧ (∀ q : ℚ, validateValue (.percent "0-1") (.scalar (.num q)) =
      if q < 0 ∨ q > 1 then
        .error "Percent must be between 0 and 1 after normalization"
      else .ok (.num q))
  ∧ validateValue (.percent "0-100") (.scalar (.num 45)) = .ok (.num 0.45)
  ∧ validateValue (.percent "0-1") (.scalar (.num 0.45)) = .ok (.num 0.45)
  ∧ validateValue (.percent "0-100") (.scalar (.num 150)) =
      .error "Percent must be between 0 and 1 after normalization"
:= by
  have h100 : ∀ q : ℚ, validateValue (.percent "0-100") (.scalar (.num q)) =
      if q / 100 < 0 ∨ q / 100 > 1 then
        Except.error "Percent must be between 0 and 1 after normalization"
      else .ok (.num (q / 100)) := fun q => by simp [validateValue, pyFloat]
  have h1 : ∀ q : ℚ, validateValue (.percent "0-1") (.scalar (.num q)) =
      if q < 0 ∨ q > 1 then
        Except.error "Percent must be between 0 and 1 after normalization"
      else .ok (.num q) := fun q => by simp [validateValue, pyFloat]
  refine ⟨h100, h1, ?_, ?_, ?_⟩
  · rw [h100]; norm_num
  · rw [h1]; norm_num
  · rw [h100]; norm_num

end Pdfx
